import Mathlib

/-!
Shallow embedding of `src/main.py` (an RSS-to-Telegram forwarding bot).

Strings are modelled as Lean `String` (lists of unicode code points, matching
Python's `str` indexing/length semantics for the inputs considered here, all of
which avoid astral-plane normalisation issues).  File-system state (the cursor
file `last_entry_id.txt`) is modelled as an `Option String`: `none` means the
file does not exist, `some c` means it holds text `c`.  Telegram send calls are
modelled by an outcome oracle `ok : Nat → Nat → Bool` giving, for entry index
`i` and attempt number `a`, whether that send attempt succeeds.  Exceptions
escaping `process_and_send_entries` are recorded in the `raised` field of the
cycle result (the file state reached before the exception is kept, since the
writes already happened).
-/

namespace EasyMoney

/-- Configuration constants (defaults from `src/main.py` lines 39-41). -/
def CHECK_INTERVAL : Nat := 300

/-- `MAX_RETRIES = 3` (`src/main.py` line 40). -/
def MAX_RETRIES : Nat := 3

/-- `POST_COOLDOWN` default 60 seconds (`src/main.py` line 41). -/
def POST_COOLDOWN : Nat := 60

/-! ### urllib.parse.urlparse — the fragment used by `is_valid_url`

Model of CPython `urllib.parse.urlsplit` restricted to what `is_valid_url`
inspects: the `scheme` and `netloc` components, for ASCII inputs (the netloc
bracket/IDNA validation branches, which only raise on exotic inputs, are not
modelled). -/

/-- CPython removes tab, CR and LF anywhere in the URL before splitting. -/
def removeUnsafe (l : List Char) : List Char :=
  l.filter fun c => !(c == '\t') && !(c == '\r') && !(c == '\n')

/-- Characters allowed in a URL scheme (`scheme_chars` in CPython). -/
def isSchemeChar (c : Char) : Bool :=
  c.isAlphanum || c == '+' || c == '-' || c == '.'

/-- Split off the scheme: CPython takes the text before the first `:` when it
is non-empty, starts with an ASCII letter and consists of scheme characters;
the scheme is lowercased.  Returns `(scheme, rest)`. -/
def splitScheme (l : List Char) : List Char × List Char :=
  let pre := l.takeWhile fun c => !(c == ':')
  if pre.length < l.length && 0 < pre.length &&
      (pre.headD ' ').isAlpha && pre.all isSchemeChar then
    (pre.map Char.toLower, l.drop (pre.length + 1))
  else
    ([], l)

/-- After the scheme, a netloc exists only when the rest starts with `//`; it
extends to the first `/`, `?` or `#`. -/
def splitNetloc : List Char → List Char
  | '/' :: '/' :: rest =>
      rest.takeWhile fun c => !(c == '/') && !(c == '?') && !(c == '#')
  | _ => []

/-- The `scheme` component of `urlparse(url)`. -/
def urlScheme (url : String) : String :=
  ⟨(splitScheme (removeUnsafe url.data)).1⟩

/-- The `netloc` component of `urlparse(url)`. -/
def urlNetloc (url : String) : String :=
  ⟨splitNetloc (splitScheme (removeUnsafe url.data)).2⟩

/-- `is_valid_url` (`src/main.py` lines 49-57): false for falsy input, else
requires both `result.scheme` and `result.netloc` to be truthy (non-empty). -/
def is_valid_url (url : String) : Bool :=
  if url.data = [] then false
  else !(urlScheme url).data.isEmpty && !(urlNetloc url).data.isEmpty

/-! ### html.escape -/

/-- Per-character expansion of Python `html.escape(s)` (default `quote=True`):
`&`, `<`, `>`, `"` and the apostrophe (code point 39) are replaced. -/
def html_escape_char (c : Char) : List Char :=
  if c == '&' then ("&amp;").data
  else if c == '<' then ("&lt;").data
  else if c == '>' then ("&gt;").data
  else if c == '"' then ("&quot;").data
  else if c.toNat = 39 then ("&#x27;").data
  else [c]

/-- `html.escape` as used on titles and summaries (`src/main.py` 141, 144). -/
def html_escape (s : String) : String :=
  ⟨s.data.flatMap html_escape_char⟩

/-! ### truncate_text -/

/-- `s.rsplit(' ', 1)[0]`: everything strictly before the last space, or the
whole list when it holds no space. -/
def rsplit_head (l : List Char) : List Char :=
  if l.contains ' ' then
    ((l.reverse.dropWhile fun c => !(c == ' ')).drop 1).reverse
  else l

/-- The part of `l` strictly after its last space (used to state where
`rsplit_head` cuts). -/
def after_last_space (l : List Char) : List Char :=
  (l.reverse.takeWhile fun c => !(c == ' ')).reverse

/-- `truncate_text` (`src/main.py` lines 99-104):
`if len(text) <= max_len: return text`;
`truncated = text[:max_len].rsplit(' ', 1)[0]`;
`return truncated + '...' if truncated else text[:max_len] + '...'`. -/
def truncate_text (text : String) (max_len : Nat) : String :=
  if text.data.length ≤ max_len then text
  else
    let window := text.data.take max_len
    let truncated := rsplit_head window
    if truncated = [] then String.mk window ++ "..."
    else String.mk truncated ++ "..."

/-! ### Feed entries and image extraction -/

/-- One element of `entry.media_content`; the `url` key may be missing. -/
structure Media where
  url : Option String
deriving DecidableEq, Repr

/-- One element of `entry.links`: `type` (read with default `''`) and `href`
(read with default `None`). -/
structure LinkData where
  ltype : Option String
  href : Option String
deriving DecidableEq, Repr

/-- A feedparser entry, restricted to the fields `src/main.py` reads.
`id` is `some v` when the `'id'` key is present (possibly with an empty
value); `link`/`title` are `none` when the attribute is missing, in which
case attribute access raises `AttributeError`; `summary` is guarded by
`hasattr` in the code, so `none` simply defaults to the empty string. -/
structure FeedEntry where
  id : Option String
  link : Option String
  title : Option String
  summary : Option String
  media_content : List Media
  links : List LinkData
deriving DecidableEq, Repr

/-- Python `pat in s`: `pat` occurs as a contiguous substring. -/
def substr_in (pat : List Char) : List Char → Bool
  | [] => pat.isEmpty
  | c :: rest => pat.isPrefixOf (c :: rest) || substr_in pat rest

/-- Python `s.lower()` (charwise; agrees with `str.lower` on ASCII). -/
def py_lower (s : String) : List Char :=
  s.data.map Char.toLower

/-- Python `s.startswith(pre)`. -/
def py_startswith (s pre : String) : Bool :=
  pre.data.isPrefixOf s.data

/-- Keyword heuristic of `src/main.py` line 125: one of
`image`, `img`, `photo`, `picture` occurs in `href.lower()`. -/
def has_image_keyword (href : String) : Bool :=
  substr_in ("image").data (py_lower href) ||
  substr_in ("img").data (py_lower href) ||
  substr_in ("photo").data (py_lower href) ||
  substr_in ("picture").data (py_lower href)

/-- The `media_content` loop (`src/main.py` 109-114): first media whose `url`
key is present and valid. -/
def findMedia : List Media → Option String
  | [] => none
  | m :: rest =>
    match m.url with
    | some u => if is_valid_url u then some u else findMedia rest
    | none => findMedia rest

/-- The `links` loop (`src/main.py` 117-126): a single pass; for each link
with a truthy, valid `href`, a `type` starting with `"image"` returns it,
else a keyword match in the URL returns it. -/
def findLinkImage : List LinkData → Option String
  | [] => none
  | ld :: rest =>
    match ld.href with
    | some h =>
      if !h.data.isEmpty && is_valid_url h then
        if py_startswith (ld.ltype.getD "") "image" then some h
        else if has_image_keyword h then some h
        else findLinkImage rest
      else findLinkImage rest
    | none => findLinkImage rest

/-- `extract_image_url` (`src/main.py` 106-127). -/
def extract_image_url (entry : FeedEntry) : Option String :=
  match findMedia entry.media_content with
  | some u => some u
  | none => findLinkImage entry.links

/-- Boolean predicate: this media element would be selected by the
`media_content` scan. -/
def media_valid (m : Media) : Bool :=
  match m.url with
  | some u => is_valid_url u
  | none => false

/-- Boolean predicate: this link would be selected by the single-pass `links`
scan (valid URL and image-type-or-keyword). -/
def link_matches (ld : LinkData) : Bool :=
  match ld.href with
  | some h =>
    !h.data.isEmpty && is_valid_url h &&
      (py_startswith (ld.ltype.getD "") "image" || has_image_keyword h)
  | none => false

/-! ### Cursor store -/

/-- The characters Python `str.strip()` removes: exactly those with
`str.isspace()` true — `0x09`-`0x0D`, `0x1C`-`0x1F`, space, NEL `0x85`,
NBSP `0xA0`, Ogham space `0x1680`, the `0x2000`-`0x200A` spaces, line and
paragraph separators `0x2028`/`0x2029`, narrow NBSP `0x202F`, medium
mathematical space `0x205F` and ideographic space `0x3000` (and nothing
else: e.g. zero-width space `0x200B` is not stripped). -/
def isPyWs (c : Char) : Bool :=
  (9 ≤ c.toNat && c.toNat ≤ 13) ||
  (28 ≤ c.toNat && c.toNat ≤ 31) ||
  c.toNat = 32 ||
  c.toNat = 0x85 ||
  c.toNat = 0xA0 ||
  c.toNat = 0x1680 ||
  (0x2000 ≤ c.toNat && c.toNat ≤ 0x200A) ||
  c.toNat = 0x2028 ||
  c.toNat = 0x2029 ||
  c.toNat = 0x202F ||
  c.toNat = 0x205F ||
  c.toNat = 0x3000

/-- Python `s.strip()`: drop whitespace from both ends. -/
def pyStrip (s : String) : String :=
  ⟨((s.data.dropWhile isPyWs).reverse.dropWhile isPyWs).reverse⟩

/-- `get_last_entry_id` (`src/main.py` 79-88): missing file reads as `None`;
otherwise the stripped content, with the empty string mapped to `None`. -/
def get_last_entry_id (file : Option String) : Option String :=
  match file with
  | none => none
  | some c =>
    let s := pyStrip c
    if s.data = [] then none else some s

/-- `save_last_entry_id` (`src/main.py` 90-97): overwrite the file. -/
def save_last_entry_id (entry_id : String) (_file : Option String) : Option String :=
  some entry_id

/-! ### Per-entry delivery with retries -/

/-- Observable outcome of the per-entry retry loop
(`src/main.py` 153-189). -/
structure SendResult where
  sent : Bool
  attempts : Nat
  warn_logs : Nat
  error_logged : Bool
  backoff_sleeps : Nat
deriving DecidableEq, Repr

/-- `for send_attempt in range(MAX_RETRIES)` with fuel: `made` counts attempts
already made (equals the current `send_attempt`).  On success the loop breaks
with no sleep; on failure a warning is logged, the final attempt additionally
logs an error, and `time.sleep(2)` runs unconditionally. -/
def send_loop (ok : Nat → Bool) : Nat → Nat → Bool → SendResult
  | 0, made, errLogged => ⟨false, made, made, errLogged, made⟩
  | remaining + 1, made, errLogged =>
    if ok made then ⟨true, made + 1, made, errLogged, made⟩
    else send_loop ok remaining (made + 1)
      (errLogged || decide (made = MAX_RETRIES - 1))

/-- The whole retry loop for one entry. -/
def send_with_retries (ok : Nat → Bool) : SendResult :=
  send_loop ok MAX_RETRIES 0 false

/-! ### The cycle walk (`process_and_send_entries`) -/

/-- Python errors the embedding distinguishes. -/
inductive PyError where
  | attributeError
deriving DecidableEq, Repr

/-- Which Telegram call is made for an entry (`src/main.py` 156-170). -/
inductive SendKind where
  | photo
  | text
deriving DecidableEq, Repr

/-- The send call chosen for an entry: photo iff an image URL was found. -/
def send_kind_of (e : FeedEntry) : SendKind :=
  if (extract_image_url e).isSome then SendKind.photo else SendKind.text

/-- `entry.get('id', entry.link)` after `entry.link` has been evaluated to
`lk`: the `'id'` value when the key is present — even when empty — else
`lk`. -/
def entry_id_of (e : FeedEntry) (lk : String) : String :=
  e.id.getD lk

/-- `if last_id and entry_id == last_id` (`src/main.py` 138): the stored
cursor must be truthy (non-`None`, non-empty) and equal. -/
def watermark_hit (last_id : Option String) (eid : String) : Bool :=
  match last_id with
  | some l => !l.data.isEmpty && eid == l
  | none => false

/-- The message f-string of `src/main.py` line 147 (title and summary are
already HTML-escaped by the caller). -/
def format_message (title summary link : String) : String :=
  "<b>" ++ title ++ "</b>\n\n" ++ truncate_text summary 3500 ++
    "\n\nЧитать далее: " ++ link

/-- Trace of one entry's processing inside a cycle. -/
structure EntryOutcome where
  idx : Nat
  entry_id : String
  kind : SendKind
  payload : String
  res : SendResult
  cooldown_slept : Bool
deriving DecidableEq, Repr

/-- Result of one `process_and_send_entries` run.  `raised` records an
exception escaping the function (in which case the Python function never
returns `new_entries_sent`, but the sends and cursor writes made before the
exception are kept in `outcomes` and `file`). -/
structure CycleResult where
  outcomes : List EntryOutcome
  new_entries_sent : Nat
  file : Option String
  raised : Option PyError
deriving DecidableEq, Repr

/-- The text handed to the Telegram call for an entry whose link is `lk` and
title is `t`: the full message for `send_message`, its 1024-truncation as the
caption for `send_photo` (`src/main.py` 147, 156-170). -/
def rendered_payload (e : FeedEntry) (lk t : String) : String :=
  let message :=
    format_message (html_escape t) (html_escape (e.summary.getD "")) lk
  match send_kind_of e with
  | SendKind.photo => truncate_text message 1024
  | SendKind.text => message

/-- The entry walk of `process_and_send_entries` (`src/main.py` 134-195).
`last_id` is the cursor read once before the loop; `i` is the entry index
(used only to address the send oracle); `file` is the cursor-file state.
Per entry: evaluate `entry.link` (raising when absent), derive the id, stop
at the watermark, evaluate `entry.title` (raising when absent), render the
message, pick photo/text by `extract_image_url`, run the retry loop; on
success save the cursor, count, and sleep the cooldown. -/
def walk (ok : Nat → Nat → Bool) (last_id : Option String) :
    List FeedEntry → Nat → Option String → CycleResult
  | [], _, file => ⟨[], 0, file, none⟩
  | e :: rest, i, file =>
    match e.link with
    | none => ⟨[], 0, file, some PyError.attributeError⟩
    | some lk =>
      if watermark_hit last_id (entry_id_of e lk) then ⟨[], 0, file, none⟩
      else
        match e.title with
        | none => ⟨[], 0, file, some PyError.attributeError⟩
        | some t =>
          let res := send_with_retries (ok i)
          if res.sent then
            let r := walk ok last_id rest (i + 1)
              (save_last_entry_id (entry_id_of e lk) file)
            ⟨⟨i, entry_id_of e lk, send_kind_of e, rendered_payload e lk t,
                res, true⟩ :: r.outcomes,
              r.new_entries_sent + 1, r.file, r.raised⟩
          else
            let r := walk ok last_id rest (i + 1) file
            ⟨⟨i, entry_id_of e lk, send_kind_of e, rendered_payload e lk t,
                res, false⟩ :: r.outcomes,
              r.new_entries_sent, r.file, r.raised⟩

/-- `process_and_send_entries(entries)` (`src/main.py` 129-195), with the
cursor-file state passed explicitly. -/
def process_and_send_entries (ok : Nat → Nat → Bool) (entries : List FeedEntry)
    (file : Option String) : CycleResult :=
  walk ok (get_last_entry_id file) entries 0 file

/-! ### One iteration of the scheduler loop (`main`) -/

/-- What `feedparser.parse` hands back: either the bozo flag or entries. -/
inductive FeedResult where
  | failure
  | entries (es : List FeedEntry)

/-- Observable effects of one iteration of the `while True` loop of `main`
(`src/main.py` 201-223). -/
structure MainCycleResult where
  delivered_msgs : Nat
  reported_count : Option Nat
  file : Option String
  parse_error_logged : Bool
  raised_caught : Bool
  sleep_seconds : Nat
deriving DecidableEq, Repr

/-- Number of messages actually handed to Telegram in a cycle. -/
def sent_count (r : CycleResult) : Nat :=
  (r.outcomes.filter fun o => o.res.sent).length

/-- One scheduler iteration: on bozo, log the parse error and sleep the
check interval; otherwise run the cycle; an exception escaping it is caught
by the `except` clause, which sleeps 60 seconds instead of the interval. -/
def main_cycle (ok : Nat → Nat → Bool) (fr : FeedResult)
    (file : Option String) : MainCycleResult :=
  match fr with
  | FeedResult.failure => ⟨0, none, file, true, false, CHECK_INTERVAL⟩
  | FeedResult.entries es =>
    let r := process_and_send_entries ok es file
    match r.raised with
    | none => ⟨sent_count r, some r.new_entries_sent, r.file, false, false, CHECK_INTERVAL⟩
    | some _ => ⟨sent_count r, none, r.file, false, true, 60⟩

/-! ### Projection helpers used in statements -/

/-- Ids of the entries actually delivered, in delivery order. -/
def delivered_ids (r : CycleResult) : List String :=
  (r.outcomes.filter fun o => o.res.sent).map fun o => o.entry_id

/-- Indices of the processed entries, in order. -/
def outcome_indices (r : CycleResult) : List Nat :=
  r.outcomes.map fun o => o.idx

/-- The cursor-file state obtained by replaying exactly the successful
deliveries' cursor saves over the initial state: the id of the last
successful delivery, or the initial state when nothing was sent. -/
def last_success_id (r : CycleResult) (file : Option String) : Option String :=
  r.outcomes.foldl (fun acc o => if o.res.sent then some o.entry_id else acc) file

/-! ### Concrete inputs used in counterexamples and witnesses -/

/-- A plain feed entry with the given id and title. -/
def c1_mk (i t : String) : FeedEntry :=
  ⟨some i, some ("http://feed.example/" ++ i), some t, some ("s " ++ t), [], []⟩

/-- The end-to-end scenario feed: ids 3 (newest), 2, 1 (oldest). -/
def c1_entries : List FeedEntry := [c1_mk "3" "C", c1_mk "2" "B", c1_mk "1" "A"]

/-- First cycle: no prior cursor (the cursor file exists and is empty), every
send succeeds. -/
def c1_first : CycleResult :=
  process_and_send_entries (fun _ _ => true) c1_entries (some "")

/-- Second cycle over the identical feed, starting from the cursor state the
first cycle persisted. -/
def c1_second : CycleResult :=
  process_and_send_entries (fun _ _ => true) c1_entries c1_first.file

/-- Entry whose `'id'` key is present but empty, with a well-formed link. -/
def c5_empty_id_entry : FeedEntry :=
  ⟨some "", some "http://x.example/p", some "T", none, [], []⟩

/-- Entry with an ordinary non-empty id. -/
def c5_entry : FeedEntry :=
  ⟨some "abc", some "http://h.example/x", some "T", none, [], []⟩

/-- Entry whose first typed link matches only by keyword (`photo` in the URL)
and whose second typed link has declared type `image/png`. -/
def c3_entry : FeedEntry :=
  ⟨some "e", some "http://feed.example/e", some "T", none, [],
    [⟨some "text/html", some "http://a.example/photo"⟩,
     ⟨some "image/png", some "http://b.example/x"⟩]⟩

/-- Entry whose image candidates are all malformed: a relative media URL, a
missing media URL, a host-less image-typed link, an empty href and a missing
href. -/
def c7_entry : FeedEntry :=
  ⟨some "c7", some "http://feed.example/c7", some "T", none,
    [⟨some "relative/img.png"⟩, ⟨none⟩],
    [⟨some "image/png", some "/img/a.png"⟩,
     ⟨some "text/html", some ""⟩,
     ⟨none, none⟩]⟩

/-- The full rendered message for an entry with a one-character title, a
1015-character space-free summary, and an ordinary link.  Its first 1024
characters contain newlines but no space. -/
def c2_message : String :=
  format_message (html_escape "T")
    (html_escape (String.mk (List.replicate 1015 'a'))) "http://e.example/p"

/-- The full rendered message for a 4000-character space-free summary: the
summary is truncated to 3503 characters, and the surrounding title, labels
and link push the whole message past 3500. -/
def c2_long_message : String :=
  format_message (html_escape "T")
    (html_escape (String.mk (List.replicate 4000 'a'))) "http://e.example/p"

/-! ### Helper lemmas -/

/-- `findMedia` is the first media element passing `media_valid`, projected to
its URL. -/
theorem findMedia_eq_find? (ms : List Media) :
    findMedia ms = (ms.find? media_valid).bind Media.url := by
  induction ms with
  | nil => rfl
  | cons m rest ih =>
    cases hu : m.url with
    | none =>
      have hm : media_valid m = false := by simp [media_valid, hu]
      simp [findMedia, hu, List.find?_cons, hm, ih]
    | some u =>
      by_cases hv : is_valid_url u = true
      · have hm : media_valid m = true := by simp [media_valid, hu, hv]
        simp [findMedia, hu, hv, List.find?_cons, hm]
      · have hm : media_valid m = false := by
          simp [media_valid, hu]
          exact Bool.of_not_eq_true hv
        simp [findMedia, hu, hv, List.find?_cons, hm, ih]

/-- `findLinkImage` is the first link passing `link_matches`, projected to its
`href` — i.e. the scan is a single pass with first match winning. -/
theorem findLinkImage_eq_find? (ls : List LinkData) :
    findLinkImage ls = (ls.find? link_matches).bind LinkData.href := by
  induction ls with
  | nil => rfl
  | cons ld rest ih =>
    cases hh : ld.href with
    | none =>
      have hm : link_matches ld = false := by simp [link_matches, hh]
      simp [findLinkImage, hh, List.find?_cons, hm, ih]
    | some h =>
      by_cases hv : (!h.data.isEmpty && is_valid_url h) = true
      · by_cases ht : (py_startswith (ld.ltype.getD "") "image"
            || has_image_keyword h) = true
        · have hm : link_matches ld = true := by
            simp only [link_matches, hh]
            simp only [Bool.and_eq_true] at hv ⊢
            exact ⟨hv, ht⟩
          rcases Bool.or_eq_true_iff.mp ht with hti | htk
          · simp [findLinkImage, hh, hv, hti, List.find?_cons, hm]
          · by_cases hti : py_startswith (ld.ltype.getD "") "image" = true
            · simp [findLinkImage, hh, hv, hti, List.find?_cons, hm]
            · simp [findLinkImage, hh, hv, hti, htk, List.find?_cons, hm]
        · have hm : link_matches ld = false := by
            simp only [link_matches, hh]
            simp only [Bool.and_eq_true, not_and] at *
            cases hb : (py_startswith (ld.ltype.getD "") "image"
                || has_image_keyword h) with
            | true => exact absurd hb ht
            | false => simp [hb]
          have hti : (py_startswith (ld.ltype.getD "") "image") = false := by
            cases hx : (py_startswith (ld.ltype.getD "") "image") with
            | false => rfl
            | true => exact absurd (by simp [hx]) ht
          have htk : has_image_keyword h = false := by
            cases hx : has_image_keyword h with
            | false => rfl
            | true => exact absurd (by simp [hx]) ht
          simp [findLinkImage, hh, hv, hti, htk, List.find?_cons, hm, ih]
      · have hm : link_matches ld = false := by
          simp only [link_matches, hh]
          cases hx : (!h.data.isEmpty && is_valid_url h) with
          | false => simp
          | true => exact absurd hx hv
        simp [findLinkImage, hh, hv, List.find?_cons, hm, ih]

/-- A string is empty iff its character list is. -/
theorem data_eq_nil_iff (s : String) : s.data = [] ↔ s = "" := by
  constructor
  · intro h
    cases s with
    | mk d =>
      have hd : d = [] := h
      rw [hd]
  · intro h; rw [h]

/-- `dropWhile` is the identity when the head fails the predicate. -/
theorem dropWhile_eq_self_of_head {α} (p : α → Bool) (l : List α)
    (h : ∀ c, l.head? = some c → p c = false) : l.dropWhile p = l := by
  cases l with
  | nil => rfl
  | cons a t =>
    have ha := h a rfl
    simp [List.dropWhile_cons, ha]

/-- The head of a non-empty `dropWhile` result fails the predicate. -/
theorem dropWhile_head_false {α} (p : α → Bool) :
    ∀ (l : List α) a t, l.dropWhile p = a :: t → p a = false := by
  intro l
  induction l with
  | nil => intro a t h; simp [List.dropWhile] at h
  | cons x xs ih =>
    intro a t h
    by_cases hp : p x = true
    · rw [List.dropWhile_cons_of_pos hp] at h
      exact ih a t h
    · rw [List.dropWhile_cons_of_neg hp] at h
      cases h
      simpa using hp

/-- `dropWhile` over a shorter-or-equal list. -/
theorem length_dropWhile_le' {α} (p : α → Bool) (l : List α) :
    (l.dropWhile p).length ≤ l.length := by
  induction l with
  | nil => simp
  | cons a t ih =>
    by_cases hp : p a = true
    · rw [List.dropWhile_cons_of_pos hp]
      exact Nat.le_succ_of_le ih
    · rw [List.dropWhile_cons_of_neg hp]

/-- `rsplit_head` never lengthens the list. -/
theorem rsplit_head_length_le (l : List Char) :
    (rsplit_head l).length ≤ l.length := by
  unfold rsplit_head
  split
  · simp only [List.length_reverse, List.length_drop]
    have h1 := length_dropWhile_le' (fun c => !(c == ' ')) l.reverse
    simp only [List.length_reverse] at h1
    omega
  · exact Nat.le_refl _

/-- Decomposition at the last space: when `l` contains a space, `l` splits as
the `rsplit_head` prefix, the last space, and a space-free tail. -/
theorem rsplit_head_split (l : List Char) (h : l.contains ' ' = true) :
    l = rsplit_head l ++ ' ' :: after_last_space l ∧
    (after_last_space l).contains ' ' = false := by
  have hmem : (' ' : Char) ∈ l.reverse := by
    simp only [List.contains] at h
    simpa using (List.elem_iff.mp h)
  have htd := List.takeWhile_append_dropWhile (fun c => !(c == ' ')) l.reverse
  cases hd : l.reverse.dropWhile (fun c => !(c == ' ')) with
  | nil =>
    exfalso
    have h2 := htd
    rw [hd, List.append_nil] at h2
    have hsp := List.mem_takeWhile_imp (h2.symm ▸ hmem)
    simp at hsp
  | cons a d =>
    have ha : (!(a == ' ')) = false :=
      dropWhile_head_false (fun c => !(c == ' ')) l.reverse a d hd
    have ha' : a = ' ' := by
      have hb : (a == ' ') = true := by
        cases hx : (a == ' ') with
        | true => rfl
        | false => rw [hx] at ha; simp at ha
      exact eq_of_beq hb
    subst ha'
    have h3 : l.reverse
        = l.reverse.takeWhile (fun c => !(c == ' ')) ++ ' ' :: d := by
      rw [← hd]; exact htd.symm
    constructor
    · have h4 := congrArg List.reverse h3
      rw [List.reverse_reverse] at h4
      unfold rsplit_head after_last_space
      rw [if_pos h, hd]
      conv_lhs => rw [h4]
      simp [List.reverse_append]
    · unfold after_last_space
      cases hx : (l.reverse.takeWhile fun c => !(c == ' ')).reverse.contains ' ' with
      | false => rfl
      | true =>
        exfalso
        have hm : (' ' : Char)
            ∈ (l.reverse.takeWhile fun c => !(c == ' ')).reverse := by
          simpa using (List.elem_iff.mp hx)
        rw [List.mem_reverse] at hm
        have := List.mem_takeWhile_imp hm
        simp at this

/-- Walk equation: missing `link` raises immediately. -/
theorem walk_cons_nolink (ok : Nat → Nat → Bool) (last_id : Option String)
    (e : FeedEntry) (rest : List FeedEntry) (i : Nat) (file : Option String)
    (hlk : e.link = none) :
    walk ok last_id (e :: rest) i file
      = ⟨[], 0, file, some PyError.attributeError⟩ := by
  simp only [walk, hlk]

/-- Walk equation: hitting the watermark stops the walk. -/
theorem walk_cons_stop (ok : Nat → Nat → Bool) (last_id : Option String)
    (e : FeedEntry) (rest : List FeedEntry) (i : Nat) (file : Option String)
    (lk : String) (hlk : e.link = some lk)
    (hwm : watermark_hit last_id (entry_id_of e lk) = true) :
    walk ok last_id (e :: rest) i file = ⟨[], 0, file, none⟩ := by
  simp only [walk, hlk, hwm, if_true]

/-- Walk equation: missing `title` raises after the watermark check. -/
theorem walk_cons_notitle (ok : Nat → Nat → Bool) (last_id : Option String)
    (e : FeedEntry) (rest : List FeedEntry) (i : Nat) (file : Option String)
    (lk : String) (hlk : e.link = some lk)
    (hwm : watermark_hit last_id (entry_id_of e lk) = false)
    (htl : e.title = none) :
    walk ok last_id (e :: rest) i file
      = ⟨[], 0, file, some PyError.attributeError⟩ := by
  simp only [walk, hlk, hwm, htl, Bool.false_eq_true, if_false]

/-- Walk equation: successful delivery saves the cursor, counts, sleeps the
cooldown and continues. -/
theorem walk_cons_sent (ok : Nat → Nat → Bool) (last_id : Option String)
    (e : FeedEntry) (rest : List FeedEntry) (i : Nat) (file : Option String)
    (lk t : String) (hlk : e.link = some lk)
    (hwm : watermark_hit last_id (entry_id_of e lk) = false)
    (htl : e.title = some t)
    (hs : (send_with_retries (ok i)).sent = true) :
    walk ok last_id (e :: rest) i file
      = ⟨⟨i, entry_id_of e lk, send_kind_of e, rendered_payload e lk t,
            send_with_retries (ok i), true⟩
          :: (walk ok last_id rest (i + 1)
              (save_last_entry_id (entry_id_of e lk) file)).outcomes,
          (walk ok last_id rest (i + 1)
              (save_last_entry_id (entry_id_of e lk) file)).new_entries_sent + 1,
          (walk ok last_id rest (i + 1)
              (save_last_entry_id (entry_id_of e lk) file)).file,
          (walk ok last_id rest (i + 1)
              (save_last_entry_id (entry_id_of e lk) file)).raised⟩ := by
  simp only [walk, hlk, hwm, htl, hs, Bool.false_eq_true, if_false, if_true]

/-- Walk equation: exhausted retries keep the cursor and the cooldown is not
slept; the walk continues with the next entry. -/
theorem walk_cons_fail (ok : Nat → Nat → Bool) (last_id : Option String)
    (e : FeedEntry) (rest : List FeedEntry) (i : Nat) (file : Option String)
    (lk t : String) (hlk : e.link = some lk)
    (hwm : watermark_hit last_id (entry_id_of e lk) = false)
    (htl : e.title = some t)
    (hs : (send_with_retries (ok i)).sent = false) :
    walk ok last_id (e :: rest) i file
      = ⟨⟨i, entry_id_of e lk, send_kind_of e, rendered_payload e lk t,
            send_with_retries (ok i), false⟩
          :: (walk ok last_id rest (i + 1) file).outcomes,
          (walk ok last_id rest (i + 1) file).new_entries_sent,
          (walk ok last_id rest (i + 1) file).file,
          (walk ok last_id rest (i + 1) file).raised⟩ := by
  simp only [walk, hlk, hwm, htl, hs, Bool.false_eq_true, if_false]

/-- Core bookkeeping invariants of the walk: the returned count is the number
of successful deliveries; the cooldown is slept after exactly the successful
ones; the final cursor-file state replays exactly the successful saves; and
the processed entry indices are consecutive from `i`. -/
theorem walk_invariants (ok : Nat → Nat → Bool) (last_id : Option String) :
    ∀ (entries : List FeedEntry) (i : Nat) (file : Option String),
      (walk ok last_id entries i file).new_entries_sent
        = sent_count (walk ok last_id entries i file) ∧
      (∀ o ∈ (walk ok last_id entries i file).outcomes,
        o.cooldown_slept = o.res.sent) ∧
      (walk ok last_id entries i file).file
        = last_success_id (walk ok last_id entries i file) file ∧
      outcome_indices (walk ok last_id entries i file)
        = List.range' i (walk ok last_id entries i file).outcomes.length := by
  intro entries
  induction entries with
  | nil =>
    intro i file
    simp [walk, sent_count, last_success_id, outcome_indices]
  | cons e rest ih =>
    intro i file
    cases hlk : e.link with
    | none =>
      rw [walk_cons_nolink ok last_id e rest i file hlk]
      simp [sent_count, last_success_id, outcome_indices]
    | some lk =>
      cases hwm : watermark_hit last_id (entry_id_of e lk) with
      | true =>
        rw [walk_cons_stop ok last_id e rest i file lk hlk hwm]
        simp [sent_count, last_success_id, outcome_indices]
      | false =>
        cases htl : e.title with
        | none =>
          rw [walk_cons_notitle ok last_id e rest i file lk hlk hwm htl]
          simp [sent_count, last_success_id, outcome_indices]
        | some t =>
          cases hs : (send_with_retries (ok i)).sent with
          | true =>
            rw [walk_cons_sent ok last_id e rest i file lk t hlk hwm htl hs]
            have ihr := ih (i + 1) (save_last_entry_id (entry_id_of e lk) file)
            refine ⟨?_, ?_, ?_, ?_⟩
            · simp only [sent_count, List.filter_cons, hs, if_true,
                List.length_cons]
              rw [ihr.1]
              rfl
            · intro o ho
              rcases List.mem_cons.mp ho with rfl | ho
              · simpa using hs.symm
              · exact ihr.2.1 o ho
            · simp only [last_success_id, List.foldl_cons, hs, if_true]
              exact ihr.2.2.1
            · have h4 := ihr.2.2.2
              simp only [outcome_indices] at h4 ⊢
              simp only [List.map_cons, List.length_cons, List.range'_succ]
              rw [h4]
          | false =>
            rw [walk_cons_fail ok last_id e rest i file lk t hlk hwm htl hs]
            have ihr := ih (i + 1) file
            refine ⟨?_, ?_, ?_, ?_⟩
            · simp only [sent_count, List.filter_cons, hs, Bool.false_eq_true,
                if_false]
              exact ihr.1
            · intro o ho
              rcases List.mem_cons.mp ho with rfl | ho
              · simpa using hs.symm
              · exact ihr.2.1 o ho
            · simp only [last_success_id, List.foldl_cons, hs,
                Bool.false_eq_true, if_false]
              exact ihr.2.2.1
            · have h4 := ihr.2.2.2
              simp only [outcome_indices] at h4 ⊢
              simp only [List.map_cons, List.length_cons, List.range'_succ]
              rw [h4]

/-- When every entry has a link, a title, and misses the watermark, the walk
processes the whole list — delivery failures never abort the cycle — and no
exception is raised. -/
theorem walk_no_stop (ok : Nat → Nat → Bool) (last_id : Option String) :
    ∀ (entries : List FeedEntry) (i : Nat) (file : Option String),
      (∀ e ∈ entries, ∃ lk t, e.link = some lk ∧ e.title = some t ∧
        watermark_hit last_id (entry_id_of e lk) = false) →
      (walk ok last_id entries i file).outcomes.length = entries.length ∧
      (walk ok last_id entries i file).raised = none := by
  intro entries
  induction entries with
  | nil => intro i file _; simp [walk]
  | cons e rest ih =>
    intro i file h
    obtain ⟨lk, t, hlk, htl, hwm⟩ := h e (List.mem_cons_self _ _)
    have hrest := fun e2 he2 => h e2 (List.mem_cons_of_mem _ he2)
    cases hs : (send_with_retries (ok i)).sent with
    | true =>
      rw [walk_cons_sent ok last_id e rest i file lk t hlk hwm htl hs]
      have ihr := ih (i + 1) (save_last_entry_id (entry_id_of e lk) file) hrest
      exact ⟨by simp [ihr.1], ihr.2⟩
    | false =>
      rw [walk_cons_fail ok last_id e rest i file lk t hlk hwm htl hs]
      have ihr := ih (i + 1) file hrest
      exact ⟨by simp [ihr.1], ihr.2⟩

/-- When the walk reaches an entry with no `link` attribute — every earlier
entry having link and title and missing the watermark — it raises, having
produced outcomes only for the earlier entries. -/
theorem walk_link_missing (ok : Nat → Nat → Bool) (last_id : Option String)
    (e : FeedEntry) (after : List FeedEntry) (he : e.link = none) :
    ∀ (before : List FeedEntry) (i : Nat) (file : Option String),
      (∀ e2 ∈ before, ∃ lk t, e2.link = some lk ∧ e2.title = some t ∧
        watermark_hit last_id (entry_id_of e2 lk) = false) →
      (walk ok last_id (before ++ e :: after) i file).raised
        = some PyError.attributeError ∧
      (walk ok last_id (before ++ e :: after) i file).outcomes.length
        = before.length := by
  intro before
  induction before with
  | nil =>
    intro i file _
    rw [List.nil_append, walk_cons_nolink ok last_id e after i file he]
    exact ⟨rfl, rfl⟩
  | cons b rest ih =>
    intro i file h
    obtain ⟨lk, t, hlk, htl, hwm⟩ := h b (List.mem_cons_self _ _)
    have hrest := fun e2 he2 => h e2 (List.mem_cons_of_mem _ he2)
    rw [List.cons_append]
    cases hs : (send_with_retries (ok i)).sent with
    | true =>
      rw [walk_cons_sent ok last_id b (rest ++ e :: after) i file lk t hlk hwm
        htl hs]
      have ihr := ih (i + 1) (save_last_entry_id (entry_id_of b lk) file) hrest
      exact ⟨ihr.1, by simp [ihr.2]⟩
    | false =>
      rw [walk_cons_fail ok last_id b (rest ++ e :: after) i file lk t hlk hwm
        htl hs]
      have ihr := ih (i + 1) file hrest
      exact ⟨ihr.1, by simp [ihr.2]⟩

/-- Escaping a run of `'a'` characters is the identity. -/
theorem html_escape_replicate_a (n : Nat) :
    (html_escape (String.mk (List.replicate n 'a'))).data
      = List.replicate n 'a' := by
  show (List.replicate n 'a').flatMap html_escape_char = List.replicate n 'a'
  induction n with
  | zero => rfl
  | succ k ih =>
    rw [List.replicate_succ, List.flatMap_cons, ih]
    rfl

/-- A run of `'a'` characters contains no space. -/
theorem contains_space_replicate_a (k : Nat) :
    (List.replicate k 'a').contains ' ' = false := by
  cases hx : (List.replicate k 'a').contains ' ' with
  | false => rfl
  | true =>
    exfalso
    have hm : (' ' : Char) ∈ List.replicate k 'a' := by
      simpa using (List.elem_iff.mp hx)
    have := (List.mem_replicate.mp hm).2
    exact absurd this (by decide)

/-- When the cut window is non-empty and holds no space, `truncate_text`
returns the hard cut plus the three-character ellipsis exactly. -/
theorem truncate_no_space_length (text : String) (max_len : Nat)
    (hlt : max_len < text.data.length)
    (hsp : (text.data.take max_len).contains ' ' = false)
    (hne : text.data.take max_len ≠ []) :
    (truncate_text text max_len).data.length = max_len + 3 := by
  have hle : ¬ text.data.length ≤ max_len := by omega
  unfold truncate_text
  rw [if_neg hle]
  have hr : rsplit_head (text.data.take max_len) = text.data.take max_len := by
    have hcond : ¬ ((text.data.take max_len).contains ' ' = true) := by
      rw [hsp]; simp
    unfold rsplit_head
    rw [if_neg hcond]
  show (if rsplit_head (text.data.take max_len) = []
      then String.mk (text.data.take max_len) ++ "..."
      else String.mk (rsplit_head (text.data.take max_len)) ++ "...").data.length
      = max_len + 3
  rw [hr, if_neg hne]
  rw [String.data_append]
  simp only [List.length_append, List.length_take]
  have hmin : min max_len text.data.length = max_len := by omega
  rw [hmin]
  rfl

/-! ### Claims -/

/-- Claim C1 (code_bug evidence): evaluating `process_and_send_entries` at the
spec's own end-to-end scenario.  With feed `[id 3, id 2, id 1]` and no prior
cursor, all three entries are delivered newest-first, but the persisted cursor
ends at `"1"` — the oldest delivered id, because the cursor is overwritten
after every send while walking newest→oldest — not at `"3"` as the claim
states; an identical second cycle therefore re-delivers entries `"3"` and
`"2"` instead of delivering zero. -/
theorem c1_cursor_regression :
    c1_first.raised = none ∧
    delivered_ids c1_first = ["3", "2", "1"] ∧
    c1_first.new_entries_sent = 3 ∧
    c1_first.file = some "1" ∧
    ¬ c1_first.file = some "3" ∧
    c1_second.new_entries_sent = 2 ∧
    delivered_ids c1_second = ["3", "2"] := by decide

set_option maxRecDepth 100000 in
/-- Claim C2 counterexample: on a concrete rendered message, the caption
rendering `truncate_text(message, 1024)` has 1027 characters — the ellipsis
is appended after the cut, so the ≤ 1024 bound fails — and the cut is a hard
mid-word cut even though the window contains whitespace (two newlines): only
the space character counts as a trim boundary.  A second concrete message
shows the full rendering exceeding 3500 characters, since the title, the
read-more label and the link sit outside the summary's truncation budget. -/
theorem c2_counterexample :
    1024 < (truncate_text c2_message 1024).data.length ∧
    (c2_message.data.take 1024).contains '\n' = true ∧
    (c2_message.data.take 1024).contains ' ' = false ∧
    truncate_text c2_message 1024
      = String.mk (c2_message.data.take 1024) ++ "..." ∧
    3500 < c2_long_message.data.length := by
  refine ⟨by decide, by decide, by decide, by decide, ?_⟩
  have h1 := html_escape_replicate_a 4000
  have h2 : (truncate_text
      (html_escape (String.mk (List.replicate 4000 'a'))) 3500).data.length
      = 3503 := by
    apply truncate_no_space_length
    · rw [h1, List.length_replicate]
      omega
    · rw [h1, List.take_replicate]
      exact contains_space_replicate_a _
    · rw [h1, List.take_replicate]
      apply List.length_pos.mp
      rw [List.length_replicate]
      decide
  unfold c2_long_message format_message
  simp only [String.data_append, List.length_append]
  rw [h2]
  decide

/-- Claim C2 (amended): `truncate_text` returns the text unchanged when its
length is at most `max_len`; otherwise it cuts at `max_len` characters, trims
back to before the last space (space `U+0020` only, not general whitespace)
within the cut when a space exists there and the trim is non-empty, falling
back to the hard cut, and then appends `"..."`; hence its output length is at
most `max_len + 3` (3503 for the summary, 1027 for the caption — the ellipsis
is not counted inside the budget), and when the window contains a space and
the trim is non-empty the output ends at a space boundary, never mid-word. -/
theorem c2_truncation_law (text : String) (max_len : Nat) :
    (text.data.length ≤ max_len → truncate_text text max_len = text) ∧
    (truncate_text text max_len).data.length ≤ max_len + 3 ∧
    (max_len < text.data.length →
      (text.data.take max_len).contains ' ' = true →
      text.data.take max_len
        = rsplit_head (text.data.take max_len)
            ++ ' ' :: after_last_space (text.data.take max_len) ∧
      (after_last_space (text.data.take max_len)).contains ' ' = false ∧
      truncate_text text max_len
        = (if rsplit_head (text.data.take max_len) = []
            then String.mk (text.data.take max_len)
            else String.mk (rsplit_head (text.data.take max_len))) ++ "...") := by
  refine ⟨fun hle => by unfold truncate_text; rw [if_pos hle], ?_,
    fun hlt hsp => ?_⟩
  · by_cases hle : text.data.length ≤ max_len
    · unfold truncate_text
      rw [if_pos hle]
      omega
    · unfold truncate_text
      rw [if_neg hle]
      by_cases hz : rsplit_head (text.data.take max_len) = []
      · rw [if_pos hz]
        rw [String.data_append]
        simp only [List.length_append, List.length_cons, List.length_nil]
        have h1 := List.length_take_le max_len text.data
        omega
      · rw [if_neg hz]
        rw [String.data_append]
        simp only [List.length_append, List.length_cons, List.length_nil]
        have h1 := rsplit_head_length_le (text.data.take max_len)
        have h2 := List.length_take_le max_len text.data
        omega
  · have hsplit := rsplit_head_split (text.data.take max_len) hsp
    refine ⟨hsplit.1, hsplit.2, ?_⟩
    have hle : ¬ text.data.length ≤ max_len := by omega
    unfold truncate_text
    rw [if_neg hle]
    by_cases hz : rsplit_head (text.data.take max_len) = []
    · rw [if_pos hz, if_pos hz]
    · rw [if_neg hz, if_neg hz]

/-- Claim C2 witness: below the limit the text passes unchanged; above it the
length bound holds and the cut lands at the last space of the window. -/
theorem c2_truncation_law_witness :
    truncate_text "ab" 5 = "ab" ∧
    (truncate_text "ab cd" 4).data.length ≤ 4 + 3 ∧
    ("ab cd" : String).data.take 4
      = rsplit_head (("ab cd" : String).data.take 4)
          ++ ' ' :: after_last_space (("ab cd" : String).data.take 4) := by
  have h1 := c2_truncation_law "ab" 5
  have h2 := c2_truncation_law "ab cd" 4
  exact ⟨h1.1 (by decide), h2.2.1, (h2.2.2 (by decide) (by decide)).1⟩

/-- Claim C3 counterexample: for an entry whose first typed link matches only
by URL keyword and whose second typed link has declared type `image/png`, the
code returns the earlier keyword link, not the type-`image` link — the links
scan is a single pass, so the claimed second-scan-after-first-scan precedence
fails. -/
theorem c3_counterexample :
    extract_image_url c3_entry = some "http://a.example/photo" ∧
    ¬ extract_image_url c3_entry = some "http://b.example/x" := by decide

/-- Claim C3 (amended): `extract_image_url` first returns the URL of the first
structured media reference passing validation; otherwise it makes one single
pass over the typed links and returns the `href` of the first link with a
valid URL whose declared type begins with `"image"` or whose URL contains an
image keyword — whichever link comes first wins; otherwise no image. -/
theorem c3_single_pass_extraction (e : FeedEntry) :
    extract_image_url e =
      match (e.media_content.find? media_valid).bind Media.url with
      | some u => some u
      | none => (e.links.find? link_matches).bind LinkData.href := by
  unfold extract_image_url
  rw [findMedia_eq_find?, findLinkImage_eq_find?]

/-- Claim C4 counterexample: when all three attempts fail, the 2-second
backoff sleep runs three times — once after every failed attempt, including
the last — not `MAX_RETRIES - 1 = 2` times as the claim's "unless it was the
last attempt" requires (`time.sleep(2)` is unconditional in both `except`
blocks). -/
theorem c4_counterexample :
    (send_with_retries fun _ => false).backoff_sleeps = 3 ∧
    ¬ (send_with_retries fun _ => false).backoff_sleeps = MAX_RETRIES - 1 := by
  decide

/-- Claim C4 (amended): for every outcome oracle, delivery is attempted at
most `MAX_RETRIES = 3` times; every failed attempt logs a warning and sleeps
the fixed 2-second backoff — including the final attempt; and when all
attempts fail, exactly `MAX_RETRIES` attempts were made, an error is logged,
and the entry is reported failed (the loop returns normally). -/
theorem c4_retry_policy (ok : Nat → Bool) :
    (send_with_retries ok).attempts ≤ MAX_RETRIES ∧
    (send_with_retries ok).warn_logs = (send_with_retries ok).backoff_sleeps ∧
    (send_with_retries ok).backoff_sleeps
      = (send_with_retries ok).attempts
          - (if (send_with_retries ok).sent then 1 else 0) ∧
    ((send_with_retries ok).sent = false →
      (send_with_retries ok).attempts = MAX_RETRIES ∧
      (send_with_retries ok).error_logged = true) := by
  cases h0 : ok 0 <;> cases h1 : ok 1 <;> cases h2 : ok 2 <;>
    simp [send_with_retries, send_loop, MAX_RETRIES, h0, h1, h2]

/-- Claim C4 witness: with the always-failing oracle, the retry loop makes
exactly `MAX_RETRIES` attempts and logs the error. -/
theorem c4_retry_policy_witness :
    (send_with_retries fun _ => false).attempts = MAX_RETRIES ∧
    (send_with_retries fun _ => false).error_logged = true :=
  (c4_retry_policy fun _ => false).2.2.2 (by decide)

/-- Claim C5 counterexample: an entry whose `'id'` key is present but empty is
identified by the empty string, not by its link — `entry.get('id',
entry.link)` falls back to the link only when the key is absent — so after a
successful delivery the persisted cursor is `""`, not the entry's link. -/
theorem c5_counterexample :
    (process_and_send_entries (fun _ _ => true) [c5_empty_id_entry] none).file
      = some "" ∧
    ¬ (process_and_send_entries (fun _ _ => true) [c5_empty_id_entry] none).file
      = some "http://x.example/p" := by decide

/-- Claim C5 (amended): the id used for the watermark comparison and for
cursor persistence equals the entry's `'id'` value whenever the key is
present — even when that value is empty — and the entry's link only when the
key is absent; the derivation is a pure function of the entry, hence
deterministic, and it is exactly the id a successful delivery persists. -/
theorem c5_id_derivation (e : FeedEntry) (lk s : String) (hlk : e.link = some lk) :
    (e.id = some s → entry_id_of e lk = s) ∧
    (e.id = none → entry_id_of e lk = lk) ∧
    (e.title ≠ none →
      (process_and_send_entries (fun _ _ => true) [e] none).file
        = some (entry_id_of e lk)) := by
  refine ⟨fun h => by simp [entry_id_of, h],
    fun h => by simp [entry_id_of, h], fun ht => ?_⟩
  cases htl : e.title with
  | none => exact absurd htl ht
  | some t =>
    simp [process_and_send_entries, walk, get_last_entry_id, hlk, htl,
      watermark_hit, send_with_retries, send_loop, MAX_RETRIES,
      save_last_entry_id]

/-- Claim C5 witness: a concrete entry with id `"abc"` and a link; the
derived id is the explicit id, and a successful single-entry cycle persists
it. -/
theorem c5_id_derivation_witness :
    entry_id_of c5_entry "http://h.example/x" = "abc" ∧
    (process_and_send_entries (fun _ _ => true) [c5_entry] none).file
      = some "abc" := by
  have h := c5_id_derivation c5_entry "http://h.example/x" "abc" rfl
  have h2 := h.2.2 (by decide)
  rw [h.1 rfl] at h2
  exact ⟨h.1 rfl, h2⟩

/-- When every media reference's URL fails validation the media scan yields
nothing. -/
theorem findMedia_none (ms : List Media)
    (h : ∀ m ∈ ms, ∀ u, m.url = some u → is_valid_url u = false) :
    findMedia ms = none := by
  induction ms with
  | nil => rfl
  | cons m rest ih =>
    cases hu : m.url with
    | none =>
      simp only [findMedia, hu]
      exact ih fun m2 hm2 => h m2 (List.mem_cons_of_mem _ hm2)
    | some u =>
      have hv := h m (List.mem_cons_self _ _) u hu
      simp only [findMedia, hu, hv, Bool.false_eq_true, if_false]
      exact ih fun m2 hm2 => h m2 (List.mem_cons_of_mem _ hm2)

/-- When every typed link's href fails validation the link scan yields
nothing. -/
theorem findLinkImage_none (ls : List LinkData)
    (h : ∀ ld ∈ ls, ∀ s, ld.href = some s → is_valid_url s = false) :
    findLinkImage ls = none := by
  induction ls with
  | nil => rfl
  | cons ld rest ih =>
    cases hh : ld.href with
    | none =>
      simp only [findLinkImage, hh]
      exact ih fun ld2 hld2 => h ld2 (List.mem_cons_of_mem _ hld2)
    | some s =>
      have hv := h ld (List.mem_cons_self _ _) s hh
      simp only [findLinkImage, hh, hv, Bool.and_false, Bool.false_eq_true,
        if_false]
      exact ih fun ld2 hld2 => h ld2 (List.mem_cons_of_mem _ hld2)

/-- Claim C7: `is_valid_url` holds exactly when the URL parses into a
non-empty scheme and a non-empty host part, and an entry all of whose image
candidates (media URLs and link hrefs) fail that criterion yields no image
and is sent through the text path (`send_message`), not the photo path. -/
theorem c7_invalid_url_rejection (url : String) (e : FeedEntry) :
    (is_valid_url url = true ↔ urlScheme url ≠ "" ∧ urlNetloc url ≠ "") ∧
    ((∀ m ∈ e.media_content, ∀ u, m.url = some u → is_valid_url u = false) →
     (∀ ld ∈ e.links, ∀ s, ld.href = some s → is_valid_url s = false) →
     extract_image_url e = none ∧ send_kind_of e = SendKind.text) := by
  constructor
  · by_cases hd : url.data = []
    · have hurl : url = "" := (data_eq_nil_iff url).mp hd
      subst hurl
      constructor
      · intro hv; simp [is_valid_url] at hv
      · intro ⟨hs, _⟩; exact absurd rfl hs
    · simp only [is_valid_url, hd, if_neg, if_false]
      constructor
      · intro hv
        rcases Bool.and_eq_true_iff.mp hv with ⟨h1, h2⟩
        constructor
        · intro hc
          rw [← data_eq_nil_iff] at hc
          simp [hc] at h1
        · intro hc
          rw [← data_eq_nil_iff] at hc
          simp [hc] at h2
      · intro ⟨h1, h2⟩
        have h1' : (urlScheme url).data ≠ [] :=
          fun hc => h1 ((data_eq_nil_iff _).mp hc)
        have h2' : (urlNetloc url).data ≠ [] :=
          fun hc => h2 ((data_eq_nil_iff _).mp hc)
        simp [h1', h2']
  · intro hm hl
    have he : extract_image_url e = none := by
      unfold extract_image_url
      rw [findMedia_none e.media_content hm, findLinkImage_none e.links hl]
    exact ⟨he, by simp [send_kind_of, he]⟩

/-- Claim C7 witness: a concrete valid URL, and a concrete entry whose only
image candidates are a relative media URL, a host-less link and an empty
href — no image is extracted and the text path is taken. -/
theorem c7_invalid_url_rejection_witness :
    is_valid_url "http://ok.example/a" = true ∧
    extract_image_url c7_entry = none ∧
    send_kind_of c7_entry = SendKind.text := by
  have h := c7_invalid_url_rejection "http://ok.example/a" c7_entry
  have hm : ∀ m ∈ c7_entry.media_content, ∀ u, m.url = some u →
      is_valid_url u = false := by
    intro m hm u hu
    simp only [c7_entry, List.mem_cons, List.not_mem_nil, or_false] at hm
    rcases hm with rfl | rfl
    · cases hu
      decide
    · cases hu
  have hl : ∀ ld ∈ c7_entry.links, ∀ s, ld.href = some s →
      is_valid_url s = false := by
    intro ld hld s hs
    simp only [c7_entry, List.mem_cons, List.not_mem_nil, or_false] at hld
    rcases hld with rfl | rfl | rfl
    · cases hs
      decide
    · cases hs
      decide
    · cases hs
  have h2 := h.2 hm hl
  exact ⟨h.1.mpr ⟨by decide, by decide⟩, h2.1, h2.2⟩

/-- Claim C10: the cursor store round-trips every id that is non-empty and
has no leading or trailing whitespace; saving an empty or whitespace-only
string makes the subsequent load report "no cursor" — so a successfully
delivered entry whose derived id is empty erases the watermark. -/
theorem c10_cursor_roundtrip (id ws : String) (f g : Option String) :
    (id ≠ "" →
     (∀ c, id.data.head? = some c → isPyWs c = false) →
     (∀ c, id.data.getLast? = some c → isPyWs c = false) →
     get_last_entry_id (save_last_entry_id id f) = some id) ∧
    (ws.data.all isPyWs = true →
     get_last_entry_id (save_last_entry_id ws g) = none) := by
  constructor
  · intro hne hhead hlast
    have h1 : id.data.dropWhile isPyWs = id.data :=
      dropWhile_eq_self_of_head isPyWs id.data hhead
    have h2 : id.data.reverse.dropWhile isPyWs = id.data.reverse :=
      dropWhile_eq_self_of_head isPyWs id.data.reverse
        (fun c hc => hlast c (by rwa [List.head?_reverse] at hc))
    have hstrip : pyStrip id = id := by
      unfold pyStrip
      rw [h1, h2, List.reverse_reverse]
    have hdata : (pyStrip id).data ≠ [] := by
      rw [hstrip]
      exact fun hc => hne ((data_eq_nil_iff id).mp hc)
    simp only [save_last_entry_id, get_last_entry_id]
    rw [if_neg hdata, hstrip]
  · intro hws
    have hall : ∀ x ∈ ws.data, isPyWs x := List.all_eq_true.mp hws
    have h1 : ws.data.dropWhile isPyWs = [] :=
      List.dropWhile_eq_nil_iff.mpr hall
    have hstrip : (pyStrip ws).data = [] := by
      unfold pyStrip
      rw [h1]
      rfl
    simp only [save_last_entry_id, get_last_entry_id]
    rw [if_pos hstrip]

/-- Claim C10 witness: saving `"abc"` loads back `some "abc"`; saving a
single space loads back `none`. -/
theorem c10_cursor_roundtrip_witness :
    get_last_entry_id (save_last_entry_id "abc" none) = some "abc" ∧
    get_last_entry_id (save_last_entry_id " " none) = none := by
  have h := c10_cursor_roundtrip "abc" " " none none
  refine ⟨h.1 (by decide) ?_ ?_, h.2 (by decide)⟩
  · intro c hc
    have hh : ("abc" : String).data.head? = some 'a' := by decide
    rw [hh] at hc
    injection hc with hc2
    rw [← hc2]
    decide
  · intro c hc
    have hh : ("abc" : String).data.getLast? = some 'c' := by decide
    rw [hh] at hc
    injection hc with hc2
    rw [← hc2]
    decide

/-- Send oracle for the C6 witness: entry 0 always fails, entry 1 always
succeeds. -/
def c6_ok : Nat → Nat → Bool := fun i _ => i == 1

/-- Two-entry feed for the C6 witness. -/
def c6_entries : List FeedEntry := [c1_mk "two" "B2", c1_mk "one" "A1"]

/-- The C6 witness cycle: the first entry exhausts its retries, the second is
delivered. -/
def c6_run : CycleResult := process_and_send_entries c6_ok c6_entries none

/-- Claim C6: for every send oracle, feed and cursor state, the returned
count equals the number of successful deliveries; an entry whose delivery
failed has its cooldown not slept; the final cursor-file state replays
exactly the successful saves (failed entries advance nothing); the processed
entries have consecutive indices starting at 0; and when every entry has a
link and a title and misses the watermark, every entry of the feed is
processed — delivery failures never abort the cycle. -/
theorem c6_retry_exhaustion (ok : Nat → Nat → Bool) (entries : List FeedEntry)
    (file : Option String) :
    (process_and_send_entries ok entries file).new_entries_sent
      = sent_count (process_and_send_entries ok entries file) ∧
    (∀ o ∈ (process_and_send_entries ok entries file).outcomes,
      o.res.sent = false → o.cooldown_slept = false) ∧
    (process_and_send_entries ok entries file).file
      = last_success_id (process_and_send_entries ok entries file) file ∧
    outcome_indices (process_and_send_entries ok entries file)
      = List.range (process_and_send_entries ok entries file).outcomes.length ∧
    ((∀ e ∈ entries, ∃ lk t, e.link = some lk ∧ e.title = some t ∧
        watermark_hit (get_last_entry_id file) (entry_id_of e lk) = false) →
      (process_and_send_entries ok entries file).outcomes.length
        = entries.length) := by
  have hinv := walk_invariants ok (get_last_entry_id file) entries 0 file
  refine ⟨hinv.1, ?_, hinv.2.2.1, ?_, ?_⟩
  · intro o ho hf
    rw [hinv.2.1 o ho, hf]
  · rw [List.range_eq_range']
    exact hinv.2.2.2
  · intro h
    exact (walk_no_stop ok (get_last_entry_id file) entries 0 file h).1

/-- Claim C6 witness: in the concrete two-entry run where the first entry
exhausts its retries, the count matches the successes, the cursor replays
only the successful save, indices are consecutive, and both entries were
processed. -/
theorem c6_retry_exhaustion_witness :
    c6_run.new_entries_sent = sent_count c6_run ∧
    c6_run.file = last_success_id c6_run none ∧
    outcome_indices c6_run = List.range c6_run.outcomes.length ∧
    c6_run.outcomes.length = c6_entries.length := by
  have h := c6_retry_exhaustion c6_ok c6_entries none
  refine ⟨h.1, h.2.2.1, h.2.2.2.1, h.2.2.2.2 ?_⟩
  intro e he
  simp only [c6_entries, List.mem_cons, List.not_mem_nil, or_false] at he
  rcases he with rfl | rfl
  · exact ⟨"http://feed.example/two", "B2", rfl, rfl, by decide⟩
  · exact ⟨"http://feed.example/one", "A1", rfl, rfl, by decide⟩

/-- The good entry walked before the link-less one in the C9 witness. -/
def c9_before : List FeedEntry := [c1_mk "new" "N"]

/-- Entry with an explicit non-empty id but no `link` attribute. -/
def c9_nolink : FeedEntry := ⟨some "zzz", none, some "T", none, [], []⟩

/-- An entry sitting after the link-less one; it is never processed. -/
def c9_after : List FeedEntry := [c1_mk "old" "O"]

/-- Claim C9: an entry with no `link` attribute makes the walk raise
`AttributeError` as soon as it is reached — even when the entry has an
explicit non-empty id, because `entry.get('id', entry.link)` evaluates
`entry.link` eagerly — so only the entries before it produce outcomes, the
rest of the cycle is skipped, and the exception is caught by the scheduler
loop's catch-all, which sleeps the 60-second recovery pause. -/
theorem c9_missing_link_raises (ok : Nat → Nat → Bool)
    (before after : List FeedEntry) (e : FeedEntry) (file : Option String)
    (he : e.link = none)
    (hb : ∀ e2 ∈ before, ∃ lk t, e2.link = some lk ∧ e2.title = some t ∧
      watermark_hit (get_last_entry_id file) (entry_id_of e2 lk) = false) :
    (process_and_send_entries ok (before ++ e :: after) file).raised
      = some PyError.attributeError ∧
    (process_and_send_entries ok (before ++ e :: after) file).outcomes.length
      = before.length ∧
    (main_cycle ok (FeedResult.entries (before ++ e :: after)) file).raised_caught
      = true ∧
    (main_cycle ok (FeedResult.entries (before ++ e :: after)) file).sleep_seconds
      = 60 := by
  have hw := walk_link_missing ok (get_last_entry_id file) e after he before 0
    file hb
  have hw1 : (process_and_send_entries ok (before ++ e :: after) file).raised
      = some PyError.attributeError := hw.1
  refine ⟨hw1, hw.2, ?_, ?_⟩
  · simp only [main_cycle]
    rw [hw1]
  · simp only [main_cycle]
    rw [hw1]

/-- Claim C9 witness: with one good entry before a link-less entry (which
carries the explicit id `"zzz"`), the cycle raises `AttributeError`, exactly
one outcome is produced, and the scheduler catch-all sleeps 60 seconds. -/
theorem c9_missing_link_raises_witness :
    (process_and_send_entries (fun _ _ => true)
        (c9_before ++ c9_nolink :: c9_after) none).raised
      = some PyError.attributeError ∧
    (process_and_send_entries (fun _ _ => true)
        (c9_before ++ c9_nolink :: c9_after) none).outcomes.length = 1 ∧
    (main_cycle (fun _ _ => true)
        (FeedResult.entries (c9_before ++ c9_nolink :: c9_after)) none).sleep_seconds
      = 60 := by
  have h := c9_missing_link_raises (fun _ _ => true) c9_before c9_after
    c9_nolink none rfl ?_
  · exact ⟨h.1, h.2.1, h.2.2.2⟩
  · intro e2 he2
    simp only [c9_before, List.mem_cons, List.not_mem_nil, or_false] at he2
    subst he2
    exact ⟨"http://feed.example/new", "N", rfl, rfl, by decide⟩

/-- Claim C8: when the feed reports a parse failure (bozo), the scheduler
iteration delivers zero entries, reports no count, leaves the cursor file
unchanged, logs the parse error, completes without an exception, and sleeps
the normal check interval. -/
theorem c8_parse_failure_cycle (ok : Nat → Nat → Bool) (file : Option String) :
    main_cycle ok FeedResult.failure file
      = ⟨0, none, file, true, false, CHECK_INTERVAL⟩ := rfl

end EasyMoney
